import Mathlib

/-!
Shallow embedding of the KiCad output-automation script (board_script.py) of
this repository, and verification of the specification claims about it.

The script has no algorithmic core: it locates an external executable,
derives file paths by naming convention, creates output directories, and
invokes the external tool in a fixed sequence.  We embed it as follows:

* paths are lists of components; the pathlib name/suffix/stem operations the
  script uses are implemented with Python semantics (last-dot splitting);
* external effects (subprocess invocations, directory creation, printing,
  writing a zip) are recorded as an event trace, produced inside a monad M
  combining that trace with string-message exceptions;
* the ambient machine is an explicit environment Env: executable lookup
  (shutil.which), file existence, subprocess exit codes and captured
  output streams, and the minute-resolution timestamp string;
* the directory-creation and zip-archiving primitives additionally get pure
  filesystem models (mkdir / ensure_dir_fs, zip_dir_entries) so that their
  own contracts can be stated and proved.
-/

namespace BoardScript

/-- A filesystem path, as its list of components.  The script never inspects
separators; every pathlib operation it uses acts on the final component. -/
abbrev Path := List String

/-- Rendering of a path as a string, as str(path) does (POSIX flavour). -/
def pathStr (p : Path) : String := String.intercalate "/" p

/-- The pathlib slash operator: append one component. -/
def pjoin (p : Path) (c : String) : Path := p ++ [c]

/-- Split a file name at its last dot: lastDotSplit l = some (a, b) exactly
when l = a ++ dot :: b and b contains no dot; none when l has no dot. -/
def lastDotSplit : List Char → Option (List Char × List Char)
  | [] => none
  | c :: rest =>
    match lastDotSplit rest with
    | some (a, b) => some (c :: a, b)
    | none => if c = '.' then some ([], rest) else none

/-- Python PurePath.suffix of a file name: the substring from the last dot,
empty when there is no dot, when the dot is the first character, or when the
dot is the last character. -/
def pySuffix (n : String) : String :=
  match lastDotSplit n.data with
  | some (a, b) => if a ≠ [] ∧ b ≠ [] then ⟨'.' :: b⟩ else ""
  | none => ""

/-- Python PurePath.stem of a file name: the name with its suffix removed. -/
def pyStem (n : String) : String :=
  match lastDotSplit n.data with
  | some (a, b) => if a ≠ [] ∧ b ≠ [] then ⟨a⟩ else n
  | none => n

/-- Python with_suffix on a file name: replace the suffix (or append when the
name has none).  The script only ever passes valid suffixes or "". -/
def withSuffixName (n s : String) : String := pyStem n ++ s

/-- ASCII lower-casing of one character (the model of str.lower used here;
the script only compares against the ASCII literal .kicad_pro). -/
def lowerChar : Char → Char
  | 'A' => 'a' | 'B' => 'b' | 'C' => 'c' | 'D' => 'd' | 'E' => 'e' | 'F' => 'f'
  | 'G' => 'g' | 'H' => 'h' | 'I' => 'i' | 'J' => 'j' | 'K' => 'k' | 'L' => 'l'
  | 'M' => 'm' | 'N' => 'n' | 'O' => 'o' | 'P' => 'p' | 'Q' => 'q' | 'R' => 'r'
  | 'S' => 's' | 'T' => 't' | 'U' => 'u' | 'V' => 'v' | 'W' => 'w' | 'X' => 'x'
  | 'Y' => 'y' | 'Z' => 'z' | c => c

/-- Python str.lower() (ASCII model). -/
def pyLower (s : String) : String := ⟨s.data.map lowerChar⟩

/-- Final component of a path (pathlib name). -/
def Path.name (p : Path) : String := p.getLastD ""

/-- pathlib with_suffix on a path: rewrite the final component. -/
def Path.withSuffix (p : Path) (s : String) : Path :=
  p.dropLast ++ [withSuffixName (Path.name p) s]

/-- pathlib stem of a path. -/
def Path.stem (p : Path) : String := pyStem (Path.name p)

/-- The ambient machine as the script observes it: executable lookup on the
search path (shutil.which), file existence, the exit code and captured
output streams each command would produce, and the timestamp string that
datetime.now().strftime("%Y%m%d_%H%M") renders (minute resolution). -/
structure Env where
  which : String → Option String
  pathExists : Path → Bool
  exitCode : List String → Nat
  stdoutOf : List String → String
  stderrOf : List String → String
  now : String

/-- The parsed command-line arguments of the script. -/
structure Args where
  project : Path
  root : Path
  prod_dir : String
  iso : Bool
  glb : Bool
  zip : Bool
  kikit : Option String
  skip_drc : Bool

/-- One observable external effect of the script. -/
inductive Event where
  | print (s : String)
  | printErr (s : String)
  | runCmd (cmd : List String)
  | ensureDir (p : Path)
  | zipWrite (zipPath : Path) (srcDir : Path)
deriving DecidableEq

/-- The effect monad of the embedding: an accumulated event trace plus
string-message exceptions (Python exceptions caught at top level). -/
def M (α : Type) : Type := List Event → Except String α × List Event

/-- Monadic return for M. -/
def M.ret {α : Type} (a : α) : M α := fun tr => (Except.ok a, tr)

/-- Monadic bind for M: failures cut the computation short, keeping the
trace produced so far. -/
def M.bnd {α β : Type} (x : M α) (f : α → M β) : M β := fun tr =>
  match x tr with
  | (Except.ok a, tr2) => f a tr2
  | (Except.error e, tr2) => (Except.error e, tr2)

instance : Monad M where
  pure := M.ret
  bind := M.bnd

/-- Record one event. -/
def emit (e : Event) : M Unit := fun tr => (Except.ok (), tr ++ [e])

/-- Raise an exception (Python raise). -/
def raiseE {α : Type} (msg : String) : M α := fun tr => (Except.error msg, tr)

/-- Run a plain fallible computation inside M (no events). -/
def liftE {α : Type} (r : Except String α) : M α := fun tr => (r, tr)

/-- Python str.strip(): drop whitespace from both ends. -/
def pyStrip (s : String) : String :=
  ⟨((s.data.dropWhile Char.isWhitespace).reverse.dropWhile Char.isWhitespace).reverse⟩

/-- The hard-coded Windows fallback install location of kicad-cli. -/
def winDefaultKicad : Path :=
  ["C:", "Program Files", "KiCad", "9.0", "bin", "kicad-cli.exe"]

/-- Message raised when kicad-cli is found neither on the search path nor at
the fallback location. -/
def kicadNotFoundMsg : String :=
  "kicad-cli not found on PATH and not at default KiCad 9 location.\nAdd KiCad to PATH or set KICAD_CLI env var / adjust this script."

/-- which_kicad_cli from the script: search path first, then the hard-coded
Windows default location, else a FileNotFoundError.  The unused local
variable env of the source (Path(str(Path.cwd()))) is dead code and is
dropped. -/
def which_kicad_cli (env : Env) : Except String String :=
  match env.which "kicad-cli" with
  | some exe => Except.ok exe
  | none =>
    if env.pathExists winDefaultKicad then Except.ok (pathStr winDefaultKicad)
    else Except.error kicadNotFoundMsg

/-- run from the script: echo the command line, execute it with captured
output, print the captured streams and raise on a non-zero exit code, and
return the stripped standard output on success. -/
def run (env : Env) (cmd : List String) : M String := do
  emit (.print (">> " ++ String.intercalate " " cmd))
  emit (.runCmd cmd)
  if env.exitCode cmd ≠ 0 then
    emit (.print (env.stdoutOf cmd))
    emit (.printErr (env.stderrOf cmd))
    raiseE ("Command failed with code " ++ toString (env.exitCode cmd))
  else
    pure (pyStrip (env.stdoutOf cmd))

/-- ensure_dir from the script: p.mkdir(parents=True, exist_ok=True) and
return p.  The trace records the request; its filesystem meaning is the
pure function ensure_dir_fs below. -/
def ensure_dir (p : Path) : M Path := do
  emit (.ensureDir p)
  pure p

/-- timestamp_tag from the script: the %Y%m%d_%H%M rendering of the current
time, supplied by the environment. -/
def timestamp_tag (env : Env) : String := env.now

/-- project_paths from the script: accept a .kicad_pro path (case
insensitive on the suffix), a base name, or a path stem; derive the sibling
schematic and board paths; fail naming the missing file when either does
not exist; return (stem name, schematic path, board path). -/
def project_paths (env : Env) (project_file : Path) : Except String (String × Path × Path) :=
  let stem :=
    if pyLower (pySuffix (Path.name project_file)) = ".kicad_pro" then
      Path.withSuffix project_file ""
    else
      project_file
  let sch := Path.withSuffix stem ".kicad_sch"
  let pcb := Path.withSuffix stem ".kicad_pcb"
  if env.pathExists sch = false then
    Except.error ("Schematic not found: " ++ pathStr sch)
  else if env.pathExists pcb = false then
    Except.error ("Board not found: " ++ pathStr pcb)
  else
    Except.ok (Path.name stem, sch, pcb)

/-- Pure filesystem state: the set (as a list) of directories that exist. -/
abbrev FS := List Path

/-- All nonempty prefixes of a path: the directory itself and every
ancestor. -/
def ancestorsOf (p : Path) : List Path := (List.range p.length).map (fun k => p.take (k + 1))

/-- Model of pathlib mkdir(parents, exist_ok) on the pure filesystem state:
error FileExistsError when the directory exists and exist_ok is false;
with parents, create every missing ancestor; without parents, error
FileNotFoundError when the parent is missing. -/
def mkdir (fs : FS) (p : Path) (parents exist_ok : Bool) : Except String FS :=
  if p ∈ fs then
    (if exist_ok then Except.ok fs else Except.error "FileExistsError")
  else if parents then
    Except.ok (fs ++ (ancestorsOf p).filter (fun q => ¬ q ∈ fs))
  else if p.dropLast ∈ fs ∨ p.dropLast = [] then
    Except.ok (fs ++ [p])
  else Except.error "FileNotFoundError"

/-- The filesystem effect of ensure_dir: add the directory and its missing
ancestors, keeping everything that already exists. -/
def ensure_dir_fs (fs : FS) (p : Path) : FS :=
  if p ∈ fs then fs else fs ++ (ancestorsOf p).filter (fun q => ¬ q ∈ fs)

/-- Boolean prefix test on component lists. -/
def startsWithP : Path → Path → Bool
  | [], _ => true
  | _ :: _, [] => false
  | a :: as, b :: bs => a == b && startsWithP as bs

/-- p lies strictly below src (what src.rglob("*") enumerates: every file
and directory recursively under src, src itself excluded). -/
def underDir (src p : Path) : Bool := startsWithP src p && p ≠ src

/-- pathlib relative_to(src) for a path below src: drop the src prefix. -/
def relTo (p src : Path) : Path := p.drop src.length

/-- Model of zip_dir from the script over a filesystem listing fs: one
archive entry per entry of src_dir.rglob("*"), stored under the arcname
p.relative_to(src_dir). -/
def zip_dir_entries (fs : List Path) (src : Path) : List Path :=
  (fs.filter (fun p => underDir src p)).map (fun p => relTo p src)

/-- export_3d from the script. -/
def export_3d (env : Env) (kicad : String) (pcb_path : Path) (out_dir : Path)
    (make_glb : Bool) : M Path := do
  let _ ← ensure_dir out_dir
  let step_out := pjoin out_dir (Path.stem pcb_path ++ ".step")
  let _ ← run env [kicad, "pcb", "export", "step", "-o", pathStr step_out, pathStr pcb_path]
  if make_glb then
    let glb_out := pjoin out_dir (Path.stem pcb_path ++ ".glb")
    let _ ← run env [kicad, "pcb", "export", "glb", "-o", pathStr glb_out, pathStr pcb_path]
    pure step_out
  else
    pure step_out

/-- export_pictures from the script. -/
def export_pictures (env : Env) (kicad : String) (pcb_path : Path) (out_dir : Path)
    (iso : Bool) : M (List Path) := do
  let _ ← ensure_dir out_dir
  let top := pjoin out_dir (Path.stem pcb_path ++ "_top.png")
  let bot := pjoin out_dir (Path.stem pcb_path ++ "_bottom.png")
  let side := pjoin out_dir (Path.stem pcb_path ++ "_side.png")
  let _ ← run env [kicad, "pcb", "render", "-o", pathStr top, "--side", "top", "--background", "transparent", pathStr pcb_path]
  let _ ← run env [kicad, "pcb", "render", "-o", pathStr bot, "--side", "bottom", "--background", "transparent", pathStr pcb_path]
  let _ ← run env [kicad, "pcb", "render", "-o", pathStr side, "--side", "left", "--background", "transparent", pathStr pcb_path]
  if iso then
    let iso_out := pjoin out_dir (Path.stem pcb_path ++ "_iso.png")
    let _ ← run env [kicad, "pcb", "render", "-o", pathStr iso_out, "--background", "transparent", "--perspective", "--rotate", "-45,0,45", "--zoom", "1", pathStr pcb_path]
    pure [top, bot, side, iso_out]
  else
    pure [top, bot, side]

/-- The fixed layer list of the board prints PDF. -/
def layersStr : String :=
  "F.Cu,B.Cu,F.SilkS,B.SilkS,F.Mask,B.Mask,Edge.Cuts,F.Fab,B.Fab,User.Drawings"

/-- export_docs from the script. -/
def export_docs (env : Env) (kicad : String) (sch_path pcb_path : Path) (out_dir : Path)
    (include_drc : Bool) : M (Path × Path × Path × Option Path) := do
  let _ ← ensure_dir out_dir
  let sch_pdf := pjoin out_dir (Path.stem sch_path ++ "_schematic.pdf")
  let _ ← run env [kicad, "sch", "export", "pdf", "-o", pathStr sch_pdf, pathStr sch_path]
  let erc_rpt := pjoin out_dir (Path.stem sch_path ++ "_erc.rpt")
  let _ ← run env [kicad, "sch", "erc", "-o", pathStr erc_rpt, pathStr sch_path]
  let board_pdf := pjoin out_dir (Path.stem pcb_path ++ "_board_prints.pdf")
  let _ ← run env [kicad, "pcb", "export", "pdf", "-o", pathStr board_pdf, "--layers", layersStr, "--mode-multipage", pathStr pcb_path]
  if include_drc then
    let drc_rpt := pjoin out_dir (Path.stem pcb_path ++ "_drc.rpt")
    let _ ← run env [kicad, "pcb", "drc", "-o", pathStr drc_rpt, "--format", "report", pathStr pcb_path]
    pure (sch_pdf, erc_rpt, board_pdf, some drc_rpt)
  else
    pure (sch_pdf, erc_rpt, board_pdf, none)

/-- The BOM field specification string of the script (literal braces are
written with hexadecimal escapes). -/
def bomFields : String :=
  "Reference,Value,Footprint,$\x7bQUANTITY\x7d,Manufacturer,MPN,Datasheet,$\x7bDNP\x7d"

/-- The BOM column label string of the script. -/
def bomLabels : String := "Refs,Value,Footprint,Qty,Manufacturer,MPN,Datasheet,DNP"

/-- export_fab from the script. -/
def export_fab (env : Env) (kicad : String) (sch_path pcb_path : Path) (out_dir : Path)
    (zip_outputs : Bool) : M (Path × Path × Path × Path × Option Path) := do
  let root ← ensure_dir out_dir
  let gerb_dir ← ensure_dir (pjoin root "gerbers")
  let drill_dir ← ensure_dir (pjoin root "drill")
  let _ ← run env [kicad, "pcb", "export", "gerbers", "-o", pathStr gerb_dir, "--board-plot-params", pathStr pcb_path]
  let _ ← run env [kicad, "pcb", "export", "drill", "-o", pathStr drill_dir, "--format", "excellon", "--generate-map", pathStr pcb_path]
  let pos_csv := pjoin root (Path.stem pcb_path ++ "_pos.csv")
  let _ ← run env [kicad, "pcb", "export", "pos", "-o", pathStr pos_csv, "--format", "csv", "--units", "mm", "--side", "both", pathStr pcb_path]
  let bom_csv := pjoin root (Path.stem sch_path ++ "_bom.csv")
  let _ ← run env [kicad, "sch", "export", "bom", "-o", pathStr bom_csv, "--fields", bomFields, "--labels", bomLabels, "--group-by", "Value,Footprint,MPN", pathStr sch_path]
  if zip_outputs then
    let zip_path := pjoin root (Path.stem pcb_path ++ "_gerbers_" ++ timestamp_tag env ++ ".zip")
    emit (.zipWrite zip_path gerb_dir)
    pure (gerb_dir, drill_dir, pos_csv, bom_csv, some zip_path)
  else
    pure (gerb_dir, drill_dir, pos_csv, bom_csv, none)

/-- Message raised when the KiKit executable is missing. -/
def kikitNotFoundMsg : String := "KiKit executable not found on PATH."

/-- run_kikit_fab from the script: search-path lookup only, hard failure
when absent, one invocation with the fixed three-argument convention, and
the fixed archive name gerbers.zip reported inside the output directory. -/
def run_kikit_fab (env : Env) (vendor : String) (pcb_path : Path) (out_dir : Path) : M Path := do
  match env.which "kikit" with
  | none => raiseE kikitNotFoundMsg
  | some kikit => do
    let _ ← ensure_dir out_dir
    let _ ← run env [kikit, "fab", vendor, pathStr pcb_path, pathStr out_dir]
    pure (pjoin out_dir "gerbers.zip")

/-- The timestamped production run folder: root / prod_dir / (tag_proj). -/
def prod_root_path (root : Path) (prod_dir tag proj : String) : Path :=
  pjoin (pjoin root prod_dir) (tag ++ "_" ++ proj)

/-- main from the script: tool lookup, project resolution, directory
creation, the four export stages in order, and the optional KiKit stage. -/
def main (env : Env) (args : Args) : M Unit := do
  let kicad ← liftE (which_kicad_cli env)
  let (proj_stem, sch_path, pcb_path) ← liftE (project_paths env args.project)
  let root := args.root
  let three_d_dir ← ensure_dir (pjoin root "3D_MODEL")
  let pics_dir ← ensure_dir (pjoin root "PICTURES")
  let docs_dir ← ensure_dir (pjoin root "DOCUMENTATION")
  let prod_root ← ensure_dir (prod_root_path root args.prod_dir (timestamp_tag env) proj_stem)
  emit (.print ("Project: " ++ proj_stem))
  emit (.print ("SCH:     " ++ pathStr sch_path))
  emit (.print ("PCB:     " ++ pathStr pcb_path))
  emit (.print ("Root:    " ++ pathStr root))
  let _ ← export_3d env kicad pcb_path three_d_dir args.glb
  let _ ← export_pictures env kicad pcb_path pics_dir args.iso
  let _ ← export_docs env kicad sch_path pcb_path docs_dir (!args.skip_drc)
  let _ ← export_fab env kicad sch_path pcb_path prod_root args.zip
  match args.kikit with
  | some vendor =>
    emit (.print ("Running KiKit fab for vendor: " ++ vendor))
    let vendor_zip ← run_kikit_fab env vendor pcb_path prod_root
    emit (.print ("KiKit vendor ZIP: " ++ pathStr vendor_zip))
  | none => pure ()
  emit (.print "\nAll done ✅")
  emit (.print ("- 3D models:       " ++ pathStr (pjoin args.root "3D_MODEL")))
  emit (.print ("- Pictures:        " ++ pathStr (pjoin args.root "PICTURES")))
  emit (.print ("- Documentation:   " ++ pathStr (pjoin args.root "DOCUMENTATION")))
  emit (.print ("- Production run:  " ++ pathStr (prod_root_path args.root args.prod_dir (timestamp_tag env) proj_stem)))

/-- The if __name__ guard of the script: run main, catch any exception,
print it to stderr and exit 1; exit 0 otherwise.  Result: (exit code,
event trace). -/
def mainTop (env : Env) (args : Args) : Nat × List Event :=
  match main env args [] with
  | (Except.ok _, tr) => (0, tr)
  | (Except.error e, tr) => (1, tr ++ [Event.printErr ("\nERROR: " ++ e)])

/-! ## Trace projections and command-sequence combinators -/

/-- The command carried by an event, when it is an invocation. -/
def eventCmd : Event → Option (List String)
  | .runCmd c => some c
  | _ => none

/-- The invocations recorded in a trace, in order. -/
def cmdsOf (tr : List Event) : List (List String) := tr.filterMap eventCmd

/-- The value following the first -o flag of a command line: the output
path the invocation writes. -/
def outArg : List String → Option String
  | [] => none
  | a :: rest => if a = "-o" then rest.head? else outArg rest

/-- Every command of the list exits with status zero. -/
def allOk (env : Env) (L : List (List String)) : Prop := ∀ c ∈ L, env.exitCode c = 0

instance (env : Env) (L : List (List String)) : Decidable (allOk env L) :=
  inferInstanceAs (Decidable (∀ c ∈ L, env.exitCode c = 0))

/-- The first command of the list with a non-zero exit status, if any. -/
def firstFail (env : Env) (L : List (List String)) : Option (List String) :=
  L.find? (fun c => env.exitCode c != 0)

/-- The commands actually issued when the list is attempted in order and
execution halts at the first failure: every command up to and including the
first failing one. -/
def uptoFail (env : Env) : List (List String) → List (List String)
  | [] => []
  | c :: rest => if env.exitCode c = 0 then c :: uptoFail env rest else [c]

theorem cmdsOf_nil : cmdsOf [] = [] := rfl

theorem cmdsOf_append (a b : List Event) : cmdsOf (a ++ b) = cmdsOf a ++ cmdsOf b :=
  List.filterMap_append a b eventCmd

theorem uptoFail_of_allOk {env : Env} {L : List (List String)} (h : allOk env L) :
    uptoFail env L = L := by
  induction L with
  | nil => rfl
  | cons c rest ih =>
    have hc : env.exitCode c = 0 := h c (List.mem_cons_self c rest)
    simp only [uptoFail, hc, if_pos]
    exact congrArg (c :: ·) (ih (fun d hd => h d (List.mem_cons_of_mem c hd)))

theorem allOk_append {env : Env} {L Ls : List (List String)} :
    allOk env (L ++ Ls) ↔ allOk env L ∧ allOk env Ls := by
  constructor
  · intro h
    exact ⟨fun c hc => h c (List.mem_append_left Ls hc),
           fun c hc => h c (List.mem_append_right L hc)⟩
  · rintro ⟨h1, h2⟩ c hc
    rcases List.mem_append.mp hc with h | h
    · exact h1 c h
    · exact h2 c h

theorem uptoFail_append_left {env : Env} {L : List (List String)} (Ls : List (List String))
    (h : allOk env L) : uptoFail env (L ++ Ls) = L ++ uptoFail env Ls := by
  induction L with
  | nil => rfl
  | cons c rest ih =>
    have hc : env.exitCode c = 0 := h c (List.mem_cons_self c rest)
    simp only [List.cons_append, uptoFail, hc, if_pos]
    exact congrArg (c :: ·) (ih (fun d hd => h d (List.mem_cons_of_mem c hd)))

theorem firstFail_eq_none {env : Env} {L : List (List String)} (h : allOk env L) :
    firstFail env L = none := by
  apply List.find?_eq_none.mpr
  intro c hc
  simp [h c hc]

theorem allOk_or_firstFail (env : Env) (L : List (List String)) :
    allOk env L ∨ ∃ c, firstFail env L = some c := by
  by_cases h : allOk env L
  · exact Or.inl h
  · right
    rw [allOk] at h
    push_neg at h
    obtain ⟨c, hc, hne⟩ := h
    have hsome : (L.find? (fun c => env.exitCode c != 0)).isSome := by
      rw [List.find?_isSome]
      exact ⟨c, hc, by simpa using hne⟩
    exact Option.isSome_iff_exists.mp hsome

theorem firstFail_append_left {env : Env} {L : List (List String)} (Ls : List (List String))
    (h : allOk env L) : firstFail env (L ++ Ls) = firstFail env Ls := by
  induction L with
  | nil => rfl
  | cons c rest ih =>
    have hc : env.exitCode c = 0 := h c (List.mem_cons_self c rest)
    simp only [firstFail, List.cons_append, List.find?]
    simp only [hc, bne_self_eq_false]
    exact ih (fun d hd => h d (List.mem_cons_of_mem c hd))

theorem firstFail_append_of_some {env : Env} {L : List (List String)} (Ls : List (List String))
    {c : List String} (h : firstFail env L = some c) : firstFail env (L ++ Ls) = some c := by
  induction L with
  | nil => simp [firstFail, List.find?] at h
  | cons d rest ih =>
    by_cases hd : env.exitCode d = 0
    · have hb : (env.exitCode d != 0) = false := by simpa using hd
      simp only [firstFail, List.cons_append, List.find?, hb] at h ⊢
      exact ih h
    · have hb : (env.exitCode d != 0) = true := by simpa using hd
      simp only [firstFail, List.cons_append, List.find?, hb] at h ⊢
      exact h

theorem uptoFail_append_of_not {env : Env} {L : List (List String)} (Ls : List (List String))
    (h : ¬ allOk env L) : uptoFail env (L ++ Ls) = uptoFail env L := by
  induction L with
  | nil => exact absurd (fun c hc => absurd hc (List.not_mem_nil c)) h
  | cons c rest ih =>
    by_cases hc : env.exitCode c = 0
    · have hrest : ¬ allOk env rest := by
        intro hr
        exact h (fun d hd => by
          rcases List.mem_cons.mp hd with rfl | hd
          · exact hc
          · exact hr d hd)
      simp only [List.cons_append, uptoFail, hc, if_pos]
      exact congrArg (c :: ·) (ih hrest)
    · simp only [List.cons_append, uptoFail, hc, if_neg, if_false]

theorem uptoFail_eq_takeWhile {env : Env} {L : List (List String)} {c : List String}
    (h : firstFail env L = some c) :
    uptoFail env L = L.takeWhile (fun d => env.exitCode d == 0) ++ [c] := by
  induction L with
  | nil => simp [firstFail, List.find?] at h
  | cons d rest ih =>
    by_cases hd : env.exitCode d = 0
    · have hb : (env.exitCode d != 0) = false := by simpa using hd
      simp only [firstFail, List.find?, hb] at h
      have hq : (env.exitCode d == 0) = true := by simp [hd]
      simp only [uptoFail, hd, if_pos, List.takeWhile_cons, hq, if_true, List.cons_append]
      exact congrArg (d :: ·) (ih h)
    · have hb : (env.exitCode d != 0) = true := by simpa using hd
      simp only [firstFail, List.find?, hb] at h
      have hdc : d = c := Option.some.inj h
      subst hdc
      have hq : (env.exitCode d == 0) = false := by simpa using hd
      simp [uptoFail, hd, List.takeWhile_cons, hq]

/-! ## Evaluation lemmas for the monad M -/

theorem M.bind_eval_ok {α β : Type} {x : M α} {f : α → M β} {tr : List Event} {a : α}
    {t2 : List Event} (h : x tr = (Except.ok a, t2)) : (x >>= f) tr = f a t2 := by
  show M.bnd x f tr = f a t2
  unfold M.bnd
  rw [h]

theorem M.bind_eval_err {α β : Type} {x : M α} {f : α → M β} {tr : List Event} {e : String}
    {t2 : List Event} (h : x tr = (Except.error e, t2)) : (x >>= f) tr = (Except.error e, t2) := by
  show M.bnd x f tr = (Except.error e, t2)
  unfold M.bnd
  rw [h]

theorem run_eval_ok {env : Env} {cmd : List String} (h : env.exitCode cmd = 0) (tr : List Event) :
    run env cmd tr =
      (Except.ok (pyStrip (env.stdoutOf cmd)),
       tr ++ [Event.print (">> " ++ String.intercalate " " cmd), Event.runCmd cmd]) := by
  show (emit (.print (">> " ++ String.intercalate " " cmd)) >>= fun _ =>
        emit (.runCmd cmd) >>= fun _ =>
        if env.exitCode cmd ≠ 0 then
          emit (.print (env.stdoutOf cmd)) >>= fun _ =>
          emit (.printErr (env.stderrOf cmd)) >>= fun _ =>
          raiseE ("Command failed with code " ++ toString (env.exitCode cmd))
        else
          pure (pyStrip (env.stdoutOf cmd))) tr = _
  rw [M.bind_eval_ok (rfl : emit _ tr = (Except.ok (), tr ++ [_]))]
  rw [M.bind_eval_ok (rfl : emit _ _ = (Except.ok (), _ ++ [_]))]
  rw [if_neg (by simp [h])]
  simp only [List.append_assoc]
  rfl

theorem run_eval_fail {env : Env} {cmd : List String} (h : ¬ env.exitCode cmd = 0)
    (tr : List Event) :
    run env cmd tr =
      (Except.error ("Command failed with code " ++ toString (env.exitCode cmd)),
       tr ++ [Event.print (">> " ++ String.intercalate " " cmd), Event.runCmd cmd,
              Event.print (env.stdoutOf cmd), Event.printErr (env.stderrOf cmd)]) := by
  show (emit (.print (">> " ++ String.intercalate " " cmd)) >>= fun _ =>
        emit (.runCmd cmd) >>= fun _ =>
        if env.exitCode cmd ≠ 0 then
          emit (.print (env.stdoutOf cmd)) >>= fun _ =>
          emit (.printErr (env.stderrOf cmd)) >>= fun _ =>
          raiseE ("Command failed with code " ++ toString (env.exitCode cmd))
        else
          pure (pyStrip (env.stdoutOf cmd))) tr = _
  rw [M.bind_eval_ok (rfl : emit _ tr = (Except.ok (), tr ++ [_]))]
  rw [M.bind_eval_ok (rfl : emit _ _ = (Except.ok (), _ ++ [_]))]
  rw [if_pos h]
  rw [M.bind_eval_ok (rfl : emit _ _ = (Except.ok (), _ ++ [_]))]
  rw [M.bind_eval_ok (rfl : emit _ _ = (Except.ok (), _ ++ [_]))]
  simp [raiseE, List.append_assoc]

/-! ## Plans: a computation characterized by the command list it attempts -/

/-- Plan env x L a: the computation x attempts exactly the commands L in
order, halting at the first failure: its trace extends the given one by the
commands of uptoFail env L; it yields a when all of L succeeds; and it
propagates the command-failed error of the first failing command
otherwise. -/
structure Plan (env : Env) {α : Type} (x : M α) (L : List (List String)) (a : α) : Prop where
  cmds : ∀ tr, cmdsOf (x tr).2 = cmdsOf tr ++ uptoFail env L
  ok : allOk env L → ∀ tr, (x tr).1 = Except.ok a
  fail : ∀ c, firstFail env L = some c →
    ∀ tr, (x tr).1 = Except.error ("Command failed with code " ++ toString (env.exitCode c))

theorem Plan.of_eq {env : Env} {α : Type} {x : M α} {L Ls : List (List String)} {a b : α}
    (hx : Plan env x L a) (hL : L = Ls) (ha : a = b) : Plan env x Ls b := hL ▸ ha ▸ hx

theorem Plan.pureP (env : Env) {α : Type} (a : α) : Plan env (pure a : M α) [] a := by
  refine ⟨fun tr => ?_, fun _ tr => rfl, fun c hc tr => ?_⟩
  · show cmdsOf tr = cmdsOf tr ++ uptoFail env []
    simp [uptoFail]
  · simp [firstFail, List.find?] at hc

theorem Plan.emitP (env : Env) {e : Event} (h : eventCmd e = none) :
    Plan env (emit e) [] () := by
  refine ⟨fun tr => ?_, fun _ tr => rfl, fun c hc tr => ?_⟩
  · show cmdsOf (tr ++ [e]) = cmdsOf tr ++ uptoFail env []
    rw [cmdsOf_append]
    simp [cmdsOf, uptoFail, h]
  · simp [firstFail, List.find?] at hc

theorem Plan.liftP (env : Env) {α : Type} (v : α) : Plan env (liftE (Except.ok v)) [] v := by
  refine ⟨fun tr => by simp [liftE, cmdsOf, uptoFail], fun _ tr => rfl, fun c hc tr => ?_⟩
  simp [firstFail, List.find?] at hc

theorem Plan.emitZipP (env : Env) (z s : Path) : Plan env (emit (.zipWrite z s)) [] () :=
  Plan.emitP env rfl

theorem Plan.ensureP (env : Env) (p : Path) : Plan env (ensure_dir p) [] p := by
  refine ⟨fun tr => ?_, fun _ tr => ?_, fun c hc tr => ?_⟩
  · show cmdsOf ((emit (.ensureDir p) >>= fun _ => pure p) tr).2 = _
    rw [M.bind_eval_ok (rfl : emit _ tr = (Except.ok (), tr ++ [_]))]
    show cmdsOf (tr ++ [Event.ensureDir p]) = _
    rw [cmdsOf_append]
    simp [cmdsOf, uptoFail, eventCmd]
  · show ((emit (.ensureDir p) >>= fun _ => pure p) tr).1 = _
    rw [M.bind_eval_ok (rfl : emit _ tr = (Except.ok (), tr ++ [_]))]
    rfl
  · simp [firstFail, List.find?] at hc

theorem Plan.runP (env : Env) (cmd : List String) :
    Plan env (run env cmd) [cmd] (pyStrip (env.stdoutOf cmd)) := by
  refine ⟨fun tr => ?_, fun hall tr => ?_, fun c hc tr => ?_⟩
  · by_cases h : env.exitCode cmd = 0
    · rw [run_eval_ok h tr, cmdsOf_append]
      simp [cmdsOf, uptoFail, eventCmd, h]
    · rw [run_eval_fail h tr, cmdsOf_append]
      simp [cmdsOf, uptoFail, eventCmd, h]
  · have h := hall cmd (List.mem_singleton.mpr rfl)
    rw [run_eval_ok h tr]
  · by_cases h : env.exitCode cmd = 0
    · rw [firstFail_eq_none (fun d hd => by rwa [List.mem_singleton.mp hd])] at hc
      exact Option.noConfusion hc
    · have hb : (env.exitCode cmd != 0) = true := by simpa using h
      simp only [firstFail, List.find?, hb] at hc
      obtain rfl := Option.some.inj hc
      rw [run_eval_fail h tr]

theorem Plan.bindP {env : Env} {α β : Type} {x : M α} {L : List (List String)} {a : α}
    {f : α → M β} {Ls : List (List String)} {b : β}
    (hx : Plan env x L a) (hf : Plan env (f a) Ls b) :
    Plan env (x >>= f) (L ++ Ls) b := by
  rcases allOk_or_firstFail env L with hok | ⟨c0, hc0⟩
  · -- x succeeds with value a; control passes to f a
    have hpair : ∀ tr, x tr = (Except.ok a, (x tr).2) := by
      intro tr
      have h1 := hx.ok hok tr
      calc x tr = ((x tr).1, (x tr).2) := rfl
        _ = (Except.ok a, (x tr).2) := by rw [h1]
    refine ⟨fun tr => ?_, fun hall tr => ?_, fun c hc tr => ?_⟩
    · rw [M.bind_eval_ok (hpair tr), hf.cmds, hx.cmds tr, uptoFail_of_allOk hok,
        uptoFail_append_left Ls hok, List.append_assoc]
    · rw [M.bind_eval_ok (hpair tr)]
      exact hf.ok (allOk_append.mp hall).2 _
    · rw [M.bind_eval_ok (hpair tr)]
      rw [firstFail_append_left Ls hok] at hc
      exact hf.fail c hc _
  · -- x halts at its first failing command c0
    have hnot : ¬ allOk env L := by
      intro hok
      rw [firstFail_eq_none hok] at hc0
      exact Option.noConfusion hc0
    have hpair : ∀ tr, x tr =
        (Except.error ("Command failed with code " ++ toString (env.exitCode c0)), (x tr).2) := by
      intro tr
      have h1 := hx.fail c0 hc0 tr
      calc x tr = ((x tr).1, (x tr).2) := rfl
        _ = _ := by rw [h1]
    refine ⟨fun tr => ?_, fun hall tr => ?_, fun c hc tr => ?_⟩
    · rw [M.bind_eval_err (hpair tr), hx.cmds tr, uptoFail_append_of_not Ls hnot]
    · exact absurd (allOk_append.mp hall).1 hnot
    · rw [firstFail_append_of_some Ls hc0] at hc
      obtain rfl := Option.some.inj hc
      rw [M.bind_eval_err (hpair tr)]

/-! ## The command lists each stage attempts -/

/-- The invocations of the 3D export stage. -/
def cmds3d (kicad : String) (pcb_path out_dir : Path) (make_glb : Bool) : List (List String) :=
  [[kicad, "pcb", "export", "step", "-o", pathStr (pjoin out_dir (Path.stem pcb_path ++ ".step")), pathStr pcb_path]]
  ++ (if make_glb then
      [[kicad, "pcb", "export", "glb", "-o", pathStr (pjoin out_dir (Path.stem pcb_path ++ ".glb")), pathStr pcb_path]]
     else [])

/-- The invocations of the picture export stage. -/
def cmdsPics (kicad : String) (pcb_path out_dir : Path) (iso : Bool) : List (List String) :=
  [[kicad, "pcb", "render", "-o", pathStr (pjoin out_dir (Path.stem pcb_path ++ "_top.png")), "--side", "top", "--background", "transparent", pathStr pcb_path],
   [kicad, "pcb", "render", "-o", pathStr (pjoin out_dir (Path.stem pcb_path ++ "_bottom.png")), "--side", "bottom", "--background", "transparent", pathStr pcb_path],
   [kicad, "pcb", "render", "-o", pathStr (pjoin out_dir (Path.stem pcb_path ++ "_side.png")), "--side", "left", "--background", "transparent", pathStr pcb_path]]
  ++ (if iso then
      [[kicad, "pcb", "render", "-o", pathStr (pjoin out_dir (Path.stem pcb_path ++ "_iso.png")), "--background", "transparent", "--perspective", "--rotate", "-45,0,45", "--zoom", "1", pathStr pcb_path]]
     else [])

/-- The invocations of the documentation export stage. -/
def cmdsDocs (kicad : String) (sch_path pcb_path out_dir : Path) (include_drc : Bool) : List (List String) :=
  [[kicad, "sch", "export", "pdf", "-o", pathStr (pjoin out_dir (Path.stem sch_path ++ "_schematic.pdf")), pathStr sch_path],
   [kicad, "sch", "erc", "-o", pathStr (pjoin out_dir (Path.stem sch_path ++ "_erc.rpt")), pathStr sch_path],
   [kicad, "pcb", "export", "pdf", "-o", pathStr (pjoin out_dir (Path.stem pcb_path ++ "_board_prints.pdf")), "--layers", layersStr, "--mode-multipage", pathStr pcb_path]]
  ++ (if include_drc then
      [[kicad, "pcb", "drc", "-o", pathStr (pjoin out_dir (Path.stem pcb_path ++ "_drc.rpt")), "--format", "report", pathStr pcb_path]]
     else [])

/-- The invocations of the fabrication export stage (the optional zip is
performed in-process, not by an invocation). -/
def cmdsFab (kicad : String) (sch_path pcb_path out_dir : Path) : List (List String) :=
  [[kicad, "pcb", "export", "gerbers", "-o", pathStr (pjoin out_dir "gerbers"), "--board-plot-params", pathStr pcb_path],
   [kicad, "pcb", "export", "drill", "-o", pathStr (pjoin out_dir "drill"), "--format", "excellon", "--generate-map", pathStr pcb_path],
   [kicad, "pcb", "export", "pos", "-o", pathStr (pjoin out_dir (Path.stem pcb_path ++ "_pos.csv")), "--format", "csv", "--units", "mm", "--side", "both", pathStr pcb_path],
   [kicad, "sch", "export", "bom", "-o", pathStr (pjoin out_dir (Path.stem sch_path ++ "_bom.csv")), "--fields", bomFields, "--labels", bomLabels, "--group-by", "Value,Footprint,MPN", pathStr sch_path]]

/-- The invocation of the optional vendor packaging stage. -/
def cmdsKikit (env : Env) (args : Args) (pcb_path out_dir : Path) : List (List String) :=
  match args.kikit with
  | none => []
  | some vendor => [[(env.which "kikit").getD "kikit", "fab", vendor, pathStr pcb_path, pathStr out_dir]]

/-- Every invocation main attempts, in program order. -/
def mainCmds (env : Env) (kicad : String) (args : Args) (proj : String) (sch pcb : Path) :
    List (List String) :=
  cmds3d kicad pcb (pjoin args.root "3D_MODEL") args.glb
  ++ cmdsPics kicad pcb (pjoin args.root "PICTURES") args.iso
  ++ cmdsDocs kicad sch pcb (pjoin args.root "DOCUMENTATION") (!args.skip_drc)
  ++ cmdsFab kicad sch pcb (prod_root_path args.root args.prod_dir env.now proj)
  ++ cmdsKikit env args pcb (prod_root_path args.root args.prod_dir env.now proj)

/-! ## Stage plans -/

theorem plan_export_3d (env : Env) (kicad : String) (pcb_path out_dir : Path) (make_glb : Bool) :
    Plan env (export_3d env kicad pcb_path out_dir make_glb)
      (cmds3d kicad pcb_path out_dir make_glb)
      (pjoin out_dir (Path.stem pcb_path ++ ".step")) := by
  unfold export_3d
  cases make_glb
  · exact Plan.of_eq
      ((Plan.ensureP env _).bindP ((Plan.runP env _).bindP (Plan.pureP env _)))
      (by simp [cmds3d]) rfl
  · exact Plan.of_eq
      ((Plan.ensureP env _).bindP ((Plan.runP env _).bindP ((Plan.runP env _).bindP (Plan.pureP env _))))
      (by simp [cmds3d]) rfl

theorem plan_export_pictures (env : Env) (kicad : String) (pcb_path out_dir : Path) (iso : Bool) :
    Plan env (export_pictures env kicad pcb_path out_dir iso)
      (cmdsPics kicad pcb_path out_dir iso)
      (if iso then
        [pjoin out_dir (Path.stem pcb_path ++ "_top.png"),
         pjoin out_dir (Path.stem pcb_path ++ "_bottom.png"),
         pjoin out_dir (Path.stem pcb_path ++ "_side.png"),
         pjoin out_dir (Path.stem pcb_path ++ "_iso.png")]
       else
        [pjoin out_dir (Path.stem pcb_path ++ "_top.png"),
         pjoin out_dir (Path.stem pcb_path ++ "_bottom.png"),
         pjoin out_dir (Path.stem pcb_path ++ "_side.png")]) := by
  unfold export_pictures
  cases iso
  · exact Plan.of_eq
      ((Plan.ensureP env _).bindP ((Plan.runP env _).bindP ((Plan.runP env _).bindP
        ((Plan.runP env _).bindP (Plan.pureP env _)))))
      (by simp [cmdsPics]) rfl
  · exact Plan.of_eq
      ((Plan.ensureP env _).bindP ((Plan.runP env _).bindP ((Plan.runP env _).bindP
        ((Plan.runP env _).bindP ((Plan.runP env _).bindP (Plan.pureP env _))))))
      (by simp [cmdsPics]) rfl

theorem plan_export_docs (env : Env) (kicad : String) (sch_path pcb_path out_dir : Path)
    (include_drc : Bool) :
    Plan env (export_docs env kicad sch_path pcb_path out_dir include_drc)
      (cmdsDocs kicad sch_path pcb_path out_dir include_drc)
      (pjoin out_dir (Path.stem sch_path ++ "_schematic.pdf"),
       pjoin out_dir (Path.stem sch_path ++ "_erc.rpt"),
       pjoin out_dir (Path.stem pcb_path ++ "_board_prints.pdf"),
       if include_drc then some (pjoin out_dir (Path.stem pcb_path ++ "_drc.rpt")) else none) := by
  unfold export_docs
  cases include_drc
  · exact Plan.of_eq
      ((Plan.ensureP env _).bindP ((Plan.runP env _).bindP ((Plan.runP env _).bindP
        ((Plan.runP env _).bindP (Plan.pureP env _)))))
      (by simp [cmdsDocs]) rfl
  · exact Plan.of_eq
      ((Plan.ensureP env _).bindP ((Plan.runP env _).bindP ((Plan.runP env _).bindP
        ((Plan.runP env _).bindP ((Plan.runP env _).bindP (Plan.pureP env _))))))
      (by simp [cmdsDocs]) rfl

theorem plan_export_fab (env : Env) (kicad : String) (sch_path pcb_path out_dir : Path)
    (zip_outputs : Bool) :
    Plan env (export_fab env kicad sch_path pcb_path out_dir zip_outputs)
      (cmdsFab kicad sch_path pcb_path out_dir)
      (pjoin out_dir "gerbers", pjoin out_dir "drill",
       pjoin out_dir (Path.stem pcb_path ++ "_pos.csv"),
       pjoin out_dir (Path.stem sch_path ++ "_bom.csv"),
       if zip_outputs then
         some (pjoin out_dir (Path.stem pcb_path ++ "_gerbers_" ++ timestamp_tag env ++ ".zip"))
       else none) := by
  unfold export_fab
  cases zip_outputs
  · exact Plan.of_eq
      ((Plan.ensureP env _).bindP ((Plan.ensureP env _).bindP ((Plan.ensureP env _).bindP
        ((Plan.runP env _).bindP ((Plan.runP env _).bindP ((Plan.runP env _).bindP
          ((Plan.runP env _).bindP (Plan.pureP env _))))))))
      (by simp [cmdsFab]) rfl
  · exact Plan.of_eq
      ((Plan.ensureP env _).bindP ((Plan.ensureP env _).bindP ((Plan.ensureP env _).bindP
        ((Plan.runP env _).bindP ((Plan.runP env _).bindP ((Plan.runP env _).bindP
          ((Plan.runP env _).bindP ((Plan.emitZipP env _ _).bindP (Plan.pureP env _)))))))))
      (by simp [cmdsFab]) rfl

theorem plan_run_kikit {env : Env} {k : String} (hk : env.which "kikit" = some k)
    (vendor : String) (pcb_path out_dir : Path) :
    Plan env (run_kikit_fab env vendor pcb_path out_dir)
      [[k, "fab", vendor, pathStr pcb_path, pathStr out_dir]]
      (pjoin out_dir "gerbers.zip") := by
  unfold run_kikit_fab
  rw [hk]
  exact Plan.of_eq
    ((Plan.ensureP env _).bindP ((Plan.runP env _).bindP (Plan.pureP env _)))
    (by simp) rfl

theorem Plan.emitPrintP (env : Env) (s : String) : Plan env (emit (.print s)) [] () :=
  Plan.emitP env rfl

theorem Plan.bind0 {env : Env} {α β : Type} {x : M α} {a : α} {f : α → M β}
    {Ls : List (List String)} {b : β} (hx : Plan env x [] a) (hf : Plan env (f a) Ls b) :
    Plan env (x >>= f) Ls b :=
  Plan.of_eq (hx.bindP hf) (List.nil_append Ls) rfl

/-- Readiness of the optional vendor stage: when a vendor is requested, the
KiKit executable resolves (otherwise main raises instead of invoking). -/
def KikitReady (env : Env) (args : Args) : Prop :=
  match args.kikit with
  | none => True
  | some _ => ∃ k, env.which "kikit" = some k

/-- The central characterization of main: once the tool locator and the
project resolver have succeeded, main attempts exactly the commands of
mainCmds in order, halting at the first failure. -/
theorem plan_main (env : Env) (args : Args) (kicad proj : String) (sch pcb : Path)
    (hW : which_kicad_cli env = Except.ok kicad)
    (hPP : project_paths env args.project = Except.ok (proj, sch, pcb))
    (hKk : KikitReady env args) :
    Plan env (main env args) (mainCmds env kicad args proj sch pcb) () := by
  unfold main
  rw [hW, hPP]
  cases hkik : args.kikit with
  | none =>
    exact Plan.of_eq
      (Plan.bind0 (Plan.liftP env kicad) <|
        Plan.bind0 (Plan.liftP env (proj, sch, pcb)) <|
        Plan.bind0 (Plan.ensureP env _) <|
        Plan.bind0 (Plan.ensureP env _) <|
        Plan.bind0 (Plan.ensureP env _) <|
        Plan.bind0 (Plan.ensureP env _) <|
        Plan.bind0 (Plan.emitPrintP env _) <|
        Plan.bind0 (Plan.emitPrintP env _) <|
        Plan.bind0 (Plan.emitPrintP env _) <|
        Plan.bind0 (Plan.emitPrintP env _) <|
        Plan.bindP (plan_export_3d env kicad pcb _ args.glb) <|
        Plan.bindP (plan_export_pictures env kicad pcb _ args.iso) <|
        Plan.bindP (plan_export_docs env kicad sch pcb _ (!args.skip_drc)) <|
        Plan.bindP (plan_export_fab env kicad sch pcb _ args.zip) <|
        Plan.bind0 (Plan.pureP env ()) <|
        Plan.bind0 (Plan.emitPrintP env _) <|
        Plan.bind0 (Plan.emitPrintP env _) <|
        Plan.bind0 (Plan.emitPrintP env _) <|
        Plan.bind0 (Plan.emitPrintP env _) <|
        Plan.emitPrintP env _)
      (by simp [mainCmds, cmdsKikit, hkik, timestamp_tag]) rfl
  | some vendor =>
    have hkk : ∃ k, env.which "kikit" = some k := by
      have h2 := hKk
      rw [KikitReady] at h2
      rw [hkik] at h2
      exact h2
    obtain ⟨k, hk⟩ := hkk
    exact Plan.of_eq
      (Plan.bind0 (Plan.liftP env kicad) <|
        Plan.bind0 (Plan.liftP env (proj, sch, pcb)) <|
        Plan.bind0 (Plan.ensureP env _) <|
        Plan.bind0 (Plan.ensureP env _) <|
        Plan.bind0 (Plan.ensureP env _) <|
        Plan.bind0 (Plan.ensureP env _) <|
        Plan.bind0 (Plan.emitPrintP env _) <|
        Plan.bind0 (Plan.emitPrintP env _) <|
        Plan.bind0 (Plan.emitPrintP env _) <|
        Plan.bind0 (Plan.emitPrintP env _) <|
        Plan.bindP (plan_export_3d env kicad pcb _ args.glb) <|
        Plan.bindP (plan_export_pictures env kicad pcb _ args.iso) <|
        Plan.bindP (plan_export_docs env kicad sch pcb _ (!args.skip_drc)) <|
        Plan.bindP (plan_export_fab env kicad sch pcb _ args.zip) <|
        Plan.bind0 (Plan.emitPrintP env _) <|
        Plan.bindP (plan_run_kikit hk vendor pcb _) <|
        Plan.bind0 (Plan.emitPrintP env _) <|
        Plan.bind0 (Plan.emitPrintP env _) <|
        Plan.bind0 (Plan.emitPrintP env _) <|
        Plan.bind0 (Plan.emitPrintP env _) <|
        Plan.bind0 (Plan.emitPrintP env _) <|
        Plan.emitPrintP env _)
      (by simp [mainCmds, cmdsKikit, hkik, hk, timestamp_tag]) rfl

/-! ## Derived characterizations of a whole run -/

theorem mainTop_of_allOk (env : Env) (args : Args) (kicad proj : String) (sch pcb : Path)
    (hW : which_kicad_cli env = Except.ok kicad)
    (hPP : project_paths env args.project = Except.ok (proj, sch, pcb))
    (hKk : KikitReady env args)
    (hall : allOk env (mainCmds env kicad args proj sch pcb)) :
    (mainTop env args).1 = 0 ∧
    cmdsOf (mainTop env args).2 = mainCmds env kicad args proj sch pcb := by
  have P := plan_main env args kicad proj sch pcb hW hPP hKk
  have h1 := P.ok hall []
  have h2 := P.cmds []
  have hpair : main env args [] = (Except.ok (), (main env args []).2) := by
    calc main env args [] = ((main env args []).1, (main env args []).2) := rfl
      _ = (Except.ok (), (main env args []).2) := by rw [h1]
  have hm : mainTop env args = (0, (main env args []).2) := by
    unfold mainTop
    rw [hpair]
  have h3 : cmdsOf (main env args []).2 = mainCmds env kicad args proj sch pcb := by
    rw [h2, uptoFail_of_allOk hall]
    rfl
  exact ⟨by rw [hm], by rw [hm]; exact h3⟩

theorem mainTop_of_fail (env : Env) (args : Args) (kicad proj : String) (sch pcb : Path)
    (hW : which_kicad_cli env = Except.ok kicad)
    (hPP : project_paths env args.project = Except.ok (proj, sch, pcb))
    (hKk : KikitReady env args)
    (c : List String) (hc : firstFail env (mainCmds env kicad args proj sch pcb) = some c) :
    (mainTop env args).1 = 1 ∧
    cmdsOf (mainTop env args).2 = uptoFail env (mainCmds env kicad args proj sch pcb) ∧
    (mainTop env args).2.getLast? =
      some (Event.printErr ("\nERROR: " ++ ("Command failed with code " ++ toString (env.exitCode c)))) := by
  have P := plan_main env args kicad proj sch pcb hW hPP hKk
  have h1 := P.fail c hc []
  have h2 := P.cmds []
  have hpair : main env args [] =
      (Except.error ("Command failed with code " ++ toString (env.exitCode c)),
       (main env args []).2) := by
    calc main env args [] = ((main env args []).1, (main env args []).2) := rfl
      _ = _ := by rw [h1]
  have hm : mainTop env args =
      (1, (main env args []).2 ++
          [Event.printErr ("\nERROR: " ++ ("Command failed with code " ++ toString (env.exitCode c)))]) := by
    unfold mainTop
    rw [hpair]
  refine ⟨by rw [hm], ?_, ?_⟩
  · rw [hm]
    show cmdsOf ((main env args []).2 ++ [_]) = _
    rw [cmdsOf_append, h2]
    simp [cmdsOf, eventCmd]
  · rw [hm]
    show ((main env args []).2 ++ [_]).getLast? = _
    rw [List.getLast?_concat]

/-! ## Concrete fixtures used by the witnesses and counterexamples -/

/-- An environment in which everything succeeds: both executables resolve,
every file exists, every command exits 0. -/
def envOkW : Env :=
  { which := fun _ => some "kc", pathExists := fun _ => true, exitCode := fun _ => 0,
    stdoutOf := fun _ => "", stderrOf := fun _ => "", now := "20250101_0000" }

/-- Arguments: project given as a bare stem, all flags off. -/
def argsW : Args :=
  { project := ["proj"], root := ["r"], prod_dir := "PRODUCTION", iso := false,
    glb := false, zip := false, kikit := none, skip_drc := false }

/-! ## Claims -/

/-- C3: when some invocation of a run exits non-zero, execution halts at
that invocation: the commands issued are exactly the successful prefix plus
the first failing command (so no later invocation of that stage and none of
any later stage occurs), the exit code is 1 and the run ends with an error
message carrying the failing exit code; outputs of earlier completed
invocations stay in the trace, and the program has no deleting effect.  A
run in which every invocation succeeds exits 0 having issued exactly the
planned commands. -/
theorem claim_C3 (env : Env) (args : Args) (kicad proj : String) (sch pcb : Path)
    (hW : which_kicad_cli env = Except.ok kicad)
    (hPP : project_paths env args.project = Except.ok (proj, sch, pcb))
    (hKk : KikitReady env args) :
    (allOk env (mainCmds env kicad args proj sch pcb) →
      (mainTop env args).1 = 0 ∧
      cmdsOf (mainTop env args).2 = mainCmds env kicad args proj sch pcb)
    ∧ (∀ c, firstFail env (mainCmds env kicad args proj sch pcb) = some c →
      (mainTop env args).1 = 1 ∧
      cmdsOf (mainTop env args).2 =
        (mainCmds env kicad args proj sch pcb).takeWhile (fun d => env.exitCode d == 0) ++ [c] ∧
      (mainTop env args).2.getLast? =
        some (Event.printErr
          ("\nERROR: " ++ ("Command failed with code " ++ toString (env.exitCode c))))) := by
  constructor
  · intro hall
    exact mainTop_of_allOk env args kicad proj sch pcb hW hPP hKk hall
  · intro c hc
    have h := mainTop_of_fail env args kicad proj sch pcb hW hPP hKk c hc
    exact ⟨h.1, by rw [h.2.1, uptoFail_eq_takeWhile hc], h.2.2⟩

/-- Witness for C3 at a concrete all-success run: exit code 0 and exactly
the planned commands issued. -/
theorem claim_C3_witness :
    (mainTop envOkW argsW).1 = 0 ∧
    cmdsOf (mainTop envOkW argsW).2 =
      mainCmds envOkW "kc" argsW "proj" ["proj.kicad_sch"] ["proj.kicad_pcb"] :=
  (claim_C3 envOkW argsW "kc" "proj" ["proj.kicad_sch"] ["proj.kicad_pcb"]
    rfl rfl trivial).1 (fun _ _ => rfl)

/-- The command is the design-rule-check invocation (kicad pcb drc ...). -/
def isDrcCmd : List String → Bool
  | _ :: "pcb" :: "drc" :: _ => true
  | _ => false

/-- C4: with neither flag, picture export renders exactly 3 files (top,
bottom, side) and 3D export writes exactly 1 (the STEP model); with the
flags, 4 (adding the isometric render) and 2 (adding the GLB model).  The
output files are the -o arguments of the attempted invocations; kicad is
any executable path other than the literal -o flag. -/
theorem claim_C4 (env : Env) (kicad : String) (pcb_path out3 outP : Path) (iso glb : Bool)
    (hk : kicad ≠ "-o") (hall : ∀ c, env.exitCode c = 0) :
    ((export_3d env kicad pcb_path out3 glb) []).1 =
        Except.ok (pjoin out3 (Path.stem pcb_path ++ ".step"))
    ∧ (cmdsOf ((export_3d env kicad pcb_path out3 glb) []).2).filterMap outArg =
        [pathStr (pjoin out3 (Path.stem pcb_path ++ ".step"))]
        ++ (if glb then [pathStr (pjoin out3 (Path.stem pcb_path ++ ".glb"))] else [])
    ∧ ((cmdsOf ((export_3d env kicad pcb_path out3 glb) []).2).filterMap outArg).length =
        (if glb then 2 else 1)
    ∧ ((export_pictures env kicad pcb_path outP iso) []).1 =
        Except.ok (if iso then
          [pjoin outP (Path.stem pcb_path ++ "_top.png"),
           pjoin outP (Path.stem pcb_path ++ "_bottom.png"),
           pjoin outP (Path.stem pcb_path ++ "_side.png"),
           pjoin outP (Path.stem pcb_path ++ "_iso.png")]
         else
          [pjoin outP (Path.stem pcb_path ++ "_top.png"),
           pjoin outP (Path.stem pcb_path ++ "_bottom.png"),
           pjoin outP (Path.stem pcb_path ++ "_side.png")])
    ∧ (cmdsOf ((export_pictures env kicad pcb_path outP iso) []).2).filterMap outArg =
        [pathStr (pjoin outP (Path.stem pcb_path ++ "_top.png")),
         pathStr (pjoin outP (Path.stem pcb_path ++ "_bottom.png")),
         pathStr (pjoin outP (Path.stem pcb_path ++ "_side.png"))]
        ++ (if iso then [pathStr (pjoin outP (Path.stem pcb_path ++ "_iso.png"))] else [])
    ∧ ((cmdsOf ((export_pictures env kicad pcb_path outP iso) []).2).filterMap outArg).length =
        (if iso then 4 else 3) := by
  have P3 := plan_export_3d env kicad pcb_path out3 glb
  have PP := plan_export_pictures env kicad pcb_path outP iso
  have h3c : cmdsOf ((export_3d env kicad pcb_path out3 glb) []).2 =
      cmds3d kicad pcb_path out3 glb := by
    rw [P3.cmds [], uptoFail_of_allOk (fun c _ => hall c)]
    rfl
  have hpc : cmdsOf ((export_pictures env kicad pcb_path outP iso) []).2 =
      cmdsPics kicad pcb_path outP iso := by
    rw [PP.cmds [], uptoFail_of_allOk (fun c _ => hall c)]
    rfl
  refine ⟨P3.ok (fun c _ => hall c) [], ?_, ?_, PP.ok (fun c _ => hall c) [], ?_, ?_⟩
  · rw [h3c]
    cases glb <;> simp [cmds3d, outArg, hk]
  · rw [h3c]
    cases glb <;> simp [cmds3d, outArg, hk]
  · rw [hpc]
    cases iso <;> simp [cmdsPics, outArg, hk]
  · rw [hpc]
    cases iso <;> simp [cmdsPics, outArg, hk]

/-- Witness for C4 at concrete inputs with both flags off: 1 3D file and 3
picture files. -/
theorem claim_C4_witness :
    ((cmdsOf ((export_3d envOkW "kc" ["b.kicad_pcb"] ["3D_MODEL"] false) []).2).filterMap
        outArg).length = 1
    ∧ ((cmdsOf ((export_pictures envOkW "kc" ["b.kicad_pcb"] ["PICTURES"] false) []).2).filterMap
        outArg).length = 3 := by
  have h := claim_C4 envOkW "kc" ["b.kicad_pcb"] ["3D_MODEL"] ["PICTURES"] false false
    (by decide) (fun _ => rfl)
  exact ⟨h.2.2.1, h.2.2.2.2.2⟩

/-- C5: the design-rule-check invocation is gated by the skip flag (default
on, since the parser default of the store-true flag is false and the stage
receives its negation): with skip-drc no DRC invocation occurs in the whole
run, hence no DRC report file is requested; without it, exactly one DRC
invocation occurs, writing the single report into the documentation
directory. -/
theorem claim_C5 (env : Env) (args : Args) (kicad proj : String) (sch pcb : Path)
    (hW : which_kicad_cli env = Except.ok kicad)
    (hPP : project_paths env args.project = Except.ok (proj, sch, pcb))
    (hKk : KikitReady env args) (hall : ∀ c, env.exitCode c = 0) :
    (args.skip_drc = true →
      (cmdsOf (mainTop env args).2).filter isDrcCmd = [])
    ∧ (args.skip_drc = false →
      (cmdsOf (mainTop env args).2).filter isDrcCmd =
        [[kicad, "pcb", "drc", "-o",
          pathStr (pjoin (pjoin args.root "DOCUMENTATION") (Path.stem pcb ++ "_drc.rpt")),
          "--format", "report", pathStr pcb]]) := by
  have hcm := (mainTop_of_allOk env args kicad proj sch pcb hW hPP hKk
    (fun c _ => hall c)).2
  constructor
  · intro hskip
    rw [hcm]
    cases hkk : args.kikit <;> cases hgl : args.glb <;> cases hio : args.iso <;>
      simp [mainCmds, cmds3d, cmdsPics, cmdsDocs, cmdsFab, cmdsKikit, hkk, hgl, hio, hskip,
        List.filter, isDrcCmd]
  · intro hskip
    rw [hcm]
    cases hkk : args.kikit <;> cases hgl : args.glb <;> cases hio : args.iso <;>
      simp [mainCmds, cmds3d, cmdsPics, cmdsDocs, cmdsFab, cmdsKikit, hkk, hgl, hio, hskip,
        List.filter, isDrcCmd]

/-- Witness for C5 at a concrete run with the default flags (DRC on):
exactly the one DRC invocation appears. -/
theorem claim_C5_witness :
    (cmdsOf (mainTop envOkW argsW).2).filter isDrcCmd =
      [["kc", "pcb", "drc", "-o",
        pathStr (pjoin (pjoin ["r"] "DOCUMENTATION") (Path.stem ["proj.kicad_pcb"] ++ "_drc.rpt")),
        "--format", "report", pathStr ["proj.kicad_pcb"]]] :=
  (claim_C5 envOkW argsW "kc" "proj" ["proj.kicad_sch"] ["proj.kicad_pcb"]
    rfl rfl trivial (fun _ => rfl)).2 rfl

/-- An environment with no resolvable executables and failing commands. -/
def envNoTool : Env :=
  { which := fun _ => none, pathExists := fun _ => false, exitCode := fun _ => 1,
    stdoutOf := fun _ => "out", stderrOf := fun _ => "err", now := "20250101_0000" }

/-- An environment in which the CAD tool resolves but no project file
exists. -/
def envC2 : Env :=
  { which := fun _ => some "kc", pathExists := fun _ => false, exitCode := fun _ => 0,
    stdoutOf := fun _ => "", stderrOf := fun _ => "", now := "20250101_0000" }

/-- C6: the tool locator first searches the executable search path, then
the one hard-coded fallback location, and otherwise fails with the
fixed message (which names the search path and the default location and
suggests remediation, see kicadNotFoundMsg); in that case the whole run
exits 1 with only that error printed — in particular no directory-creation
request and no invocation has happened. -/
theorem claim_C6 (env : Env) (args : Args) :
    (∀ exe, env.which "kicad-cli" = some exe → which_kicad_cli env = Except.ok exe)
    ∧ (env.which "kicad-cli" = none → env.pathExists winDefaultKicad = true →
        which_kicad_cli env = Except.ok (pathStr winDefaultKicad))
    ∧ (env.which "kicad-cli" = none → env.pathExists winDefaultKicad = false →
        which_kicad_cli env = Except.error kicadNotFoundMsg
        ∧ mainTop env args = (1, [Event.printErr ("\nERROR: " ++ kicadNotFoundMsg)])
        ∧ (∀ p, Event.ensureDir p ∉ (mainTop env args).2)
        ∧ cmdsOf (mainTop env args).2 = []) := by
  refine ⟨fun exe h => ?_, fun h1 h2 => ?_, fun h1 h2 => ?_⟩
  · unfold which_kicad_cli
    rw [h]
  · simp [which_kicad_cli, h1, h2]
  · have hw : which_kicad_cli env = Except.error kicadNotFoundMsg := by
      simp [which_kicad_cli, h1, h2]
    have hmain : main env args [] = (Except.error kicadNotFoundMsg, []) := by
      unfold main
      rw [hw]
      rfl
    have hm : mainTop env args = (1, [Event.printErr ("\nERROR: " ++ kicadNotFoundMsg)]) := by
      unfold mainTop
      rw [hmain]
      rfl
    refine ⟨hw, hm, fun p => ?_, ?_⟩
    · rw [hm]
      simp
    · rw [hm]
      rfl

/-- Witness for C6 at a concrete machine with no tool anywhere: the locator
error and the exit-1 run with only the error message. -/
theorem claim_C6_witness :
    which_kicad_cli envNoTool = Except.error kicadNotFoundMsg
    ∧ mainTop envNoTool argsW = (1, [Event.printErr ("\nERROR: " ++ kicadNotFoundMsg)]) := by
  have h := (claim_C6 envNoTool argsW).2.2 rfl rfl
  exact ⟨h.1, h.2.1⟩

/-- C2 (amended): when the CAD tool resolves but a companion file is
missing, the run fails during resolution with the required-input-missing
message naming the missing path, before any external command is invoked
AND before any output directory has been created: in the present ordering
resolution precedes directory creation, so the trace holds nothing but the
final error message. -/
theorem claim_C2 (env : Env) (args : Args) (kicad m : String)
    (hW : which_kicad_cli env = Except.ok kicad)
    (hPP : project_paths env args.project = Except.error m) :
    mainTop env args = (1, [Event.printErr ("\nERROR: " ++ m)])
    ∧ cmdsOf (mainTop env args).2 = []
    ∧ (∀ p, Event.ensureDir p ∉ (mainTop env args).2)
    ∧ ∃ q : Path, env.pathExists q = false ∧
        (m = "Schematic not found: " ++ pathStr q ∨ m = "Board not found: " ++ pathStr q) := by
  have hmain : main env args [] = (Except.error m, []) := by
    unfold main
    rw [hW, hPP]
    rfl
  have hm : mainTop env args = (1, [Event.printErr ("\nERROR: " ++ m)]) := by
    unfold mainTop
    rw [hmain]
    rfl
  refine ⟨hm, by rw [hm]; rfl, fun p => by rw [hm]; simp, ?_⟩
  simp only [project_paths] at hPP
  split at hPP <;> split at hPP <;> try split at hPP
  all_goals first
    | exact Except.noConfusion hPP
    | exact ⟨_, by assumption, Or.inl (Except.error.inj hPP).symm⟩
    | exact ⟨_, by assumption, Or.inr (Except.error.inj hPP).symm⟩

/-- Witness for C2 (amended) at a concrete input with a missing schematic. -/
theorem claim_C2_witness :
    mainTop envC2 argsW =
      (1, [Event.printErr ("\nERROR: " ++ "Schematic not found: proj.kicad_sch")]) :=
  (claim_C2 envC2 argsW "kc" "Schematic not found: proj.kicad_sch" rfl rfl).1

/-- Counterexample to C2 as stated: at this input (tool resolved, schematic
missing) the program does fail before any invocation, but the four
top-level output directories have NOT been created — the trace carries no
directory-creation event at all, because resolution precedes directory
creation in the code. -/
theorem claim_C2_counterexample :
    mainTop envC2 argsW =
      (1, [Event.printErr "\nERROR: Schematic not found: proj.kicad_sch"])
    ∧ Event.ensureDir (pjoin ["r"] "3D_MODEL") ∉ (mainTop envC2 argsW).2
    ∧ ∀ p, Event.ensureDir p ∉ (mainTop envC2 argsW).2 := by
  refine ⟨rfl, by decide, fun p => ?_⟩
  have hm : (mainTop envC2 argsW).2 =
      [Event.printErr "\nERROR: Schematic not found: proj.kicad_sch"] := rfl
  rw [hm]
  simp

/-- C8 (amended): the runner echoes the command line before executing,
raises the command-failed error carrying the exit code exactly when the
exit status is non-zero, returns the stripped captured stdout on success —
and on failure the runner ITSELF prints the captured stdout and stderr
before the error propagates (the source prints inside run, not in the
caller). -/
theorem claim_C8 (env : Env) (cmd : List String) (tr : List Event) :
    run env cmd tr =
      (if env.exitCode cmd = 0 then Except.ok (pyStrip (env.stdoutOf cmd))
       else Except.error ("Command failed with code " ++ toString (env.exitCode cmd)),
       tr ++ [Event.print (">> " ++ String.intercalate " " cmd), Event.runCmd cmd]
          ++ (if env.exitCode cmd = 0 then []
              else [Event.print (env.stdoutOf cmd), Event.printErr (env.stderrOf cmd)])) := by
  by_cases h : env.exitCode cmd = 0
  · rw [run_eval_ok h, if_pos h, if_pos h]
    simp
  · rw [run_eval_fail h, if_neg h, if_neg h]
    simp

/-- Counterexample to C8 as stated: the claim makes the caller, not the
runner, responsible for printing the captured output of a failed command;
but here the runner itself emits the print of the captured stdout and the
stderr print before propagating the failure. -/
theorem claim_C8_counterexample :
    run envNoTool ["tool"] [] =
      (Except.error "Command failed with code 1",
       [Event.print ">> tool", Event.runCmd ["tool"],
        Event.print "out", Event.printErr "err"]) := rfl

/-- The command invokes the vendor packaging subcommand (anything fab ...). -/
def isFabCmd : List String → Bool
  | _ :: "fab" :: _ => true
  | _ => false

/-- C9: the vendor stage runs only when the vendor argument is present
(without it no fab invocation occurs in the whole run); the second tool is
located by search-path lookup only and its absence is a hard failure; on
success there is exactly one invocation with the three-argument convention
vendor tag / board path / output directory, against the timestamped
production folder, and the reported result is the fixed archive path
gerbers.zip in that folder, unvalidated. -/
theorem claim_C9 (env : Env) (args : Args) (kicad proj : String) (sch pcb : Path) :
    (∀ vendor pcb2 out tr, env.which "kikit" = none →
        run_kikit_fab env vendor pcb2 out tr = (Except.error kikitNotFoundMsg, tr))
    ∧ (∀ k vendor pcb2 out tr, env.which "kikit" = some k →
        env.exitCode [k, "fab", vendor, pathStr pcb2, pathStr out] = 0 →
        run_kikit_fab env vendor pcb2 out tr =
          (Except.ok (pjoin out "gerbers.zip"),
           tr ++ [Event.ensureDir out,
                  Event.print (">> " ++ String.intercalate " "
                    [k, "fab", vendor, pathStr pcb2, pathStr out]),
                  Event.runCmd [k, "fab", vendor, pathStr pcb2, pathStr out]]))
    ∧ (∀ vendor k, args.kikit = some vendor → env.which "kikit" = some k →
        cmdsKikit env args pcb (prod_root_path args.root args.prod_dir env.now proj) =
          [[k, "fab", vendor, pathStr pcb,
            pathStr (prod_root_path args.root args.prod_dir env.now proj)]])
    ∧ (args.kikit = none →
        which_kicad_cli env = Except.ok kicad →
        project_paths env args.project = Except.ok (proj, sch, pcb) →
        (∀ c : List String, env.exitCode c = 0) →
        (cmdsOf (mainTop env args).2).filter isFabCmd = []) := by
  refine ⟨fun vendor pcb2 out tr h => ?_, fun k vendor pcb2 out tr hk hcode => ?_,
    fun vendor k hv hk => ?_, fun hn hW hPP hall => ?_⟩
  · unfold run_kikit_fab
    rw [h]
    rfl
  · unfold run_kikit_fab
    rw [hk]
    show (ensure_dir out >>= fun _ => run env _ >>= fun _ => pure _) tr = _
    rw [M.bind_eval_ok (rfl : ensure_dir out tr = (Except.ok out, tr ++ [Event.ensureDir out]))]
    rw [M.bind_eval_ok (run_eval_ok hcode _)]
    show (Except.ok _, _) = _
    simp [List.append_assoc]
  · simp [cmdsKikit, hv, hk]
  · have hKk : KikitReady env args := by
      rw [KikitReady, hn]
      trivial
    have hcm := (mainTop_of_allOk env args kicad proj sch pcb hW hPP hKk
      (fun c _ => hall c)).2
    rw [hcm]
    cases hgl : args.glb <;> cases hio : args.iso <;> cases hsk : args.skip_drc <;>
      simp [mainCmds, cmds3d, cmdsPics, cmdsDocs, cmdsFab, cmdsKikit, hn, hgl, hio, hsk,
        List.filter, isFabCmd]

/-- Witness for C9: one concrete successful vendor invocation with the
fixed three-argument convention and the gerbers.zip result. -/
theorem claim_C9_witness :
    run_kikit_fab envOkW "jlcpcb" ["b.kicad_pcb"] ["OUT"] [] =
      (Except.ok (pjoin ["OUT"] "gerbers.zip"),
       [Event.ensureDir ["OUT"],
        Event.print (">> " ++ String.intercalate " "
          ["kc", "fab", "jlcpcb", pathStr ["b.kicad_pcb"], pathStr ["OUT"]]),
        Event.runCmd ["kc", "fab", "jlcpcb", pathStr ["b.kicad_pcb"], pathStr ["OUT"]]]) := by
  have h := (claim_C9 envOkW argsW "kc" "proj" ["proj.kicad_sch"] ["proj.kicad_pcb"]).2.1
    "kc" "jlcpcb" ["b.kicad_pcb"] ["OUT"] [] rfl rfl
  simpa using h

/-! ## Directory planner: helper lemmas on the pure filesystem model -/

theorem mkdir_parents_exist_ok (fs : FS) (p : Path) :
    mkdir fs p true true = Except.ok (ensure_dir_fs fs p) := by
  unfold mkdir ensure_dir_fs
  by_cases hm : p ∈ fs
  · rw [if_pos hm, if_pos hm]
    rfl
  · rw [if_neg hm, if_neg hm]
    rfl

theorem ensure_mem_self (fs : FS) (p : Path) (hp : p ≠ []) : p ∈ ensure_dir_fs fs p := by
  unfold ensure_dir_fs
  by_cases hm : p ∈ fs
  · rw [if_pos hm]
    exact hm
  · rw [if_neg hm]
    refine List.mem_append_right _ ?_
    rw [List.mem_filter]
    refine ⟨?_, by simpa using hm⟩
    unfold ancestorsOf
    refine List.mem_map.mpr ⟨p.length - 1, List.mem_range.mpr ?_, ?_⟩
    · exact Nat.pred_lt (Nat.pos_iff_ne_zero.mp (List.length_pos.mpr hp))
    · rw [Nat.sub_add_cancel (List.length_pos.mpr hp), List.take_length]

theorem ensure_mem_ancestors (fs : FS) (p : Path) (hp : ¬ p ∈ fs) :
    ∀ q ∈ ancestorsOf p, q ∈ ensure_dir_fs fs p := by
  intro q hq
  unfold ensure_dir_fs
  rw [if_neg hp]
  by_cases hqf : q ∈ fs
  · exact List.mem_append_left _ hqf
  · exact List.mem_append_right _ (List.mem_filter.mpr ⟨hq, by simpa using hqf⟩)

theorem ensure_mono (fs : FS) (p : Path) : ∀ q ∈ fs, q ∈ ensure_dir_fs fs p := by
  intro q hq
  unfold ensure_dir_fs
  by_cases hm : p ∈ fs
  · rw [if_pos hm]
    exact hq
  · rw [if_neg hm]
    exact List.mem_append_left _ hq

theorem ensure_idem (fs : FS) (p : Path) :
    ensure_dir_fs (ensure_dir_fs fs p) p = ensure_dir_fs fs p := by
  by_cases hm : p ∈ fs
  · have h1 : ensure_dir_fs fs p = fs := by
      unfold ensure_dir_fs
      rw [if_pos hm]
    rw [h1, h1]
  · by_cases hn : p = []
    · subst hn
      simp [ensure_dir_fs, ancestorsOf, hm]
    · have hself : p ∈ ensure_dir_fs fs p := ensure_mem_self fs p hn
      conv_lhs => rw [ensure_dir_fs]
      rw [if_pos hself]

theorem str_append_cancel_right {a b c : String} (h : a ++ c = b ++ c) : a = b := by
  have hd : a.data ++ c.data = b.data ++ c.data := congrArg String.data h
  have h2 : a.data = b.data := List.append_cancel_right hd
  cases a
  cases b
  exact congrArg String.mk h2

theorem prod_root_path_injective_tag (root : Path) (d proj t1 t2 : String) (h : t1 ≠ t2) :
    prod_root_path root d t1 proj ≠ prod_root_path root d t2 proj := by
  intro heq
  unfold prod_root_path pjoin at heq
  have h1 : [t1 ++ "_" ++ proj] = [t2 ++ "_" ++ proj] := List.append_cancel_left heq
  have h2 : t1 ++ "_" ++ proj = t2 ++ "_" ++ proj := by
    simpa using h1
  have h3 : t1 ++ "_" = t2 ++ "_" := str_append_cancel_right h2
  exact h (str_append_cancel_right h3)

/-- C7: the planner creates a directory with parent creation and without
error when it already exists (mkdir with parents and exist-ok never
fails and acts as ensure_dir_fs); the directory itself and, when newly
created, all its ancestors exist afterwards; nothing that existed is
removed; the operation is idempotent; and the fabrication output is
namespaced by the timestamp tag concatenated with the project base name,
so differing timestamps give distinct production folders (and, with no
deletion, no prior folder is overwritten). -/
theorem claim_C7 :
    (∀ (fs : FS) (p : Path), mkdir fs p true true = Except.ok (ensure_dir_fs fs p))
    ∧ (∀ (fs : FS) (p : Path), p ≠ [] → p ∈ ensure_dir_fs fs p)
    ∧ (∀ (fs : FS) (p : Path), ¬ p ∈ fs → ∀ q ∈ ancestorsOf p, q ∈ ensure_dir_fs fs p)
    ∧ (∀ (fs : FS) (p : Path), ∀ q ∈ fs, q ∈ ensure_dir_fs fs p)
    ∧ (∀ (fs : FS) (p : Path), ensure_dir_fs (ensure_dir_fs fs p) p = ensure_dir_fs fs p)
    ∧ (∀ (root : Path) (d proj t1 t2 : String), t1 ≠ t2 →
        prod_root_path root d t1 proj ≠ prod_root_path root d t2 proj) :=
  ⟨mkdir_parents_exist_ok, ensure_mem_self, ensure_mem_ancestors, ensure_mono,
   ensure_idem, prod_root_path_injective_tag⟩

/-- Witness for C7 at concrete values: creation inside an existing tree,
membership after creation, and distinctness of two production folders one
minute apart. -/
theorem claim_C7_witness :
    mkdir [["a"]] ["a", "b"] true true = Except.ok (ensure_dir_fs [["a"]] ["a", "b"])
    ∧ ["a", "b"] ∈ ensure_dir_fs [["a"]] ["a", "b"]
    ∧ prod_root_path ["r"] "PRODUCTION" "20250101_0000" "proj" ≠
        prod_root_path ["r"] "PRODUCTION" "20250101_0001" "proj" :=
  ⟨claim_C7.1 _ _, claim_C7.2.1 _ _ (by decide),
   claim_C7.2.2.2.2.2 _ _ _ _ _ (by decide)⟩

/-! ## Zip helper lemmas -/

theorem startsWithP_exists {src p : Path} (h : startsWithP src p = true) :
    src ++ p.drop src.length = p := by
  induction src generalizing p with
  | nil => simp
  | cons a as ih =>
    cases p with
    | nil => simp [startsWithP] at h
    | cons b bs =>
      simp only [startsWithP, Bool.and_eq_true, beq_iff_eq] at h
      obtain ⟨rfl, h2⟩ := h
      simp only [List.cons_append, List.length_cons, List.drop_succ_cons, List.cons.injEq,
        true_and]
      exact ih h2

theorem underDir_reconstruct {src p : Path} (h : underDir src p = true) :
    src ++ relTo p src = p := by
  have h1 : startsWithP src p = true := by
    simp only [underDir, Bool.and_eq_true] at h
    exact h.1
  exact startsWithP_exists h1

/-- C10: over any filesystem listing, the zip helper archives exactly one
entry per filesystem entry lying recursively under the source directory
(its rglob star enumeration), each stored under the arcname equal to its
path relative to the source directory (no leading root component: the
source prefix is removed and prepending it recovers the original entry),
and nothing else; distinct entries stay distinct. -/
theorem claim_C10 (fs : List Path) (src : Path) (hnd : fs.Nodup) :
    ((zip_dir_entries fs src).length = (fs.filter (fun p => underDir src p)).length)
    ∧ (∀ a, a ∈ zip_dir_entries fs src ↔
        ∃ p, p ∈ fs ∧ underDir src p = true ∧ a = relTo p src)
    ∧ (zip_dir_entries fs src).Nodup
    ∧ (∀ a ∈ zip_dir_entries fs src, src ++ a ∈ fs) := by
  have hmem : ∀ a, a ∈ zip_dir_entries fs src ↔
      ∃ p, p ∈ fs ∧ underDir src p = true ∧ a = relTo p src := by
    intro a
    unfold zip_dir_entries
    rw [List.mem_map]
    constructor
    · rintro ⟨p, hp, rfl⟩
      rw [List.mem_filter] at hp
      exact ⟨p, hp.1, hp.2, rfl⟩
    · rintro ⟨p, h1, h2, rfl⟩
      exact ⟨p, List.mem_filter.mpr ⟨h1, h2⟩, rfl⟩
  refine ⟨by simp [zip_dir_entries], hmem, ?_, ?_⟩
  · apply List.Nodup.map_on
    · intro x hx y hy hxy
      rw [List.mem_filter] at hx hy
      have hx2 := underDir_reconstruct hx.2
      have hy2 := underDir_reconstruct hy.2
      rw [← hx2, ← hy2, hxy]
    · exact hnd.filter _
  · intro a ha
    obtain ⟨p, h1, h2, rfl⟩ := (hmem a).mp ha
    rw [underDir_reconstruct h2]
    exact h1

/-- Witness for C10 at a concrete listing: two entries under the source,
one outside and the source itself excluded, arcnames relative. -/
theorem claim_C10_witness :
    (zip_dir_entries [["g"], ["g", "a"], ["g", "b"], ["x"]] ["g"]).length =
      (([["g"], ["g", "a"], ["g", "b"], ["x"]] : List Path).filter
        (fun p => underDir ["g"] p)).length
    ∧ (zip_dir_entries [["g"], ["g", "a"], ["g", "b"], ["x"]] ["g"]).Nodup := by
  have h := claim_C10 [["g"], ["g", "a"], ["g", "b"], ["x"]] ["g"] (by decide)
  exact ⟨h.1, h.2.2.1⟩

/-! ## Name-level lemmas for the resolver claim -/

theorem lastDotSplit_eq_none {l : List Char} : lastDotSplit l = none ↔ '.' ∉ l := by
  induction l with
  | nil => simp [lastDotSplit]
  | cons c rest ih =>
    simp only [lastDotSplit]
    cases h : lastDotSplit rest with
    | some ab =>
      obtain ⟨a, b⟩ := ab
      simp only [List.mem_cons, not_or]
      constructor
      · intro hco
        exact absurd hco (by simp)
      · rintro ⟨h1, h2⟩
        exact absurd (ih.mpr h2) (by simp [h])
    | none =>
      by_cases hc : c = '.'
      · subst hc
        simp
      · simp only [if_neg hc, List.mem_cons, not_or]
        exact ⟨fun _ => ⟨fun hh => hc hh.symm, ih.mp h⟩, fun _ => trivial⟩

theorem lastDotSplit_sound {l a b : List Char} (h : lastDotSplit l = some (a, b)) :
    l = a ++ '.' :: b ∧ '.' ∉ b := by
  induction l generalizing a b with
  | nil => simp [lastDotSplit] at h
  | cons c rest ih =>
    simp only [lastDotSplit] at h
    cases hr : lastDotSplit rest with
    | some ab =>
      obtain ⟨a0, b0⟩ := ab
      rw [hr] at h
      obtain ⟨rfl, rfl⟩ : c :: a0 = a ∧ b0 = b := by simpa using h
      refine ⟨?_, (ih hr).2⟩
      rw [show rest = a0 ++ '.' :: b0 from (ih hr).1]
      rfl
    | none =>
      rw [hr] at h
      by_cases hc : c = '.'
      · rw [if_pos hc] at h
        obtain ⟨rfl, rfl⟩ : ([] : List Char) = a ∧ rest = b := by simpa using h
        exact ⟨by rw [hc]; rfl, lastDotSplit_eq_none.mp hr⟩
      · rw [if_neg hc] at h
        exact Option.noConfusion h

theorem lastDotSplit_append {n t : List Char} (ht : '.' ∉ t) :
    lastDotSplit (n ++ '.' :: t) = some (n, t) := by
  induction n with
  | nil => simp [lastDotSplit, lastDotSplit_eq_none.mpr ht]
  | cons c ncs ih => simp [lastDotSplit, ih]

theorem lowerChar_eq_dot {c : Char} (h : lowerChar c = '.') : c = '.' := by
  unfold lowerChar at h
  split at h <;> first | exact h | exact absurd h (by decide)

theorem str_data_ne (a : String) (h : a ≠ "") : a.data ≠ [] := by
  intro hd
  exact h (by cases a; simpa using congrArg String.mk hd)

theorem pySuffix_of_noDot {s : String} (h : '.' ∉ s.data) : pySuffix s = "" := by
  unfold pySuffix
  rw [lastDotSplit_eq_none.mpr h]

theorem pyStem_of_noDot {s : String} (h : '.' ∉ s.data) : pyStem s = s := by
  unfold pyStem
  rw [lastDotSplit_eq_none.mpr h]

theorem pyStem_pySuffix_append (a : String) (t : List Char) (ha : a ≠ "")
    (ht : '.' ∉ t) (htn : t ≠ []) :
    pyStem (a ++ (⟨'.' :: t⟩ : String)) = a ∧
    pySuffix (a ++ (⟨'.' :: t⟩ : String)) = (⟨'.' :: t⟩ : String) := by
  have hsplit : lastDotSplit ((a ++ (⟨'.' :: t⟩ : String)).data) = some (a.data, t) :=
    lastDotSplit_append ht
  have had := str_data_ne a ha
  unfold pyStem pySuffix
  rw [hsplit]
  simp [had, htn]

theorem name_withSuffix (p : Path) (s : String) :
    Path.name (Path.withSuffix p s) = withSuffixName (Path.name p) s := by
  unfold Path.withSuffix Path.name
  rw [List.getLastD_eq_getLast?, List.getLast?_concat]
  rfl

theorem project_paths_ok {env : Env} {pf : Path} {proj : String} {sch pcb : Path}
    (h : project_paths env pf = Except.ok (proj, sch, pcb)) :
    ∃ st : Path, proj = Path.name st ∧ sch = Path.withSuffix st ".kicad_sch" ∧
      pcb = Path.withSuffix st ".kicad_pcb" ∧
      ((pyLower (pySuffix (Path.name pf)) = ".kicad_pro" ∧ st = Path.withSuffix pf "") ∨
       (¬ pyLower (pySuffix (Path.name pf)) = ".kicad_pro" ∧ st = pf)) := by
  simp only [project_paths] at h
  split at h
  case isTrue hcond =>
    split at h
    case isTrue h1 => exact Except.noConfusion h
    case isFalse h1 =>
      split at h
      case isTrue h2 => exact Except.noConfusion h
      case isFalse h2 =>
        simp only [Except.ok.injEq, Prod.mk.injEq] at h
        obtain ⟨rfl, rfl, rfl⟩ := h
        exact ⟨Path.withSuffix pf "", rfl, rfl, rfl, Or.inl ⟨hcond, rfl⟩⟩
  case isFalse hcond =>
    split at h
    case isTrue h1 => exact Except.noConfusion h
    case isFalse h1 =>
      split at h
      case isTrue h2 => exact Except.noConfusion h
      case isFalse h2 =>
        simp only [Except.ok.injEq, Prod.mk.injEq] at h
        obtain ⟨rfl, rfl, rfl⟩ := h
        exact ⟨pf, rfl, rfl, rfl, Or.inr ⟨hcond, rfl⟩⟩

theorem resolved_names {env : Env} {pf : Path} {proj : String} {sch pcb : Path}
    (h : project_paths env pf = Except.ok (proj, sch, pcb))
    (hne : proj ≠ "") (hnd : '.' ∉ proj.data) :
    Path.name sch = proj ++ ".kicad_sch" ∧ Path.name pcb = proj ++ ".kicad_pcb" ∧
    Path.stem sch = proj ∧ Path.stem pcb = proj := by
  obtain ⟨st, hproj, hsch, hpcb, _⟩ := project_paths_ok h
  subst hsch
  subst hpcb
  have hn1 : Path.name (Path.withSuffix st ".kicad_sch") = proj ++ ".kicad_sch" := by
    rw [name_withSuffix]
    unfold withSuffixName
    rw [← hproj, pyStem_of_noDot hnd]
  have hn2 : Path.name (Path.withSuffix st ".kicad_pcb") = proj ++ ".kicad_pcb" := by
    rw [name_withSuffix]
    unfold withSuffixName
    rw [← hproj, pyStem_of_noDot hnd]
  refine ⟨hn1, hn2, ?_, ?_⟩
  · unfold Path.stem
    rw [hn1]
    exact (pyStem_pySuffix_append proj "kicad_sch".data hne (by decide) (by decide)).1
  · unfold Path.stem
    rw [hn2]
    exact (pyStem_pySuffix_append proj "kicad_pcb".data hne (by decide) (by decide)).1

/-- Modelled from the spec words: the base name is the input file name with
the conventional project-file suffix stripped from its end (matched case
insensitively); this is the spec-side re-expression against which the
resolver of the code is compared. -/
def specBaseName (n : String) : String :=
  if ((pyLower n).data).reverse.take 10 = (".kicad_pro".data).reverse
  then (⟨n.data.take (n.data.length - 10)⟩ : String) else n

theorem proj_eq_specBaseName {env : Env} {pf : Path} {proj : String} {sch pcb : Path}
    (h : project_paths env pf = Except.ok (proj, sch, pcb)) (hnd : '.' ∉ proj.data) :
    proj = specBaseName (Path.name pf) := by
  obtain ⟨st, hproj, _, _, hbr | hbr⟩ := project_paths_ok h
  · obtain ⟨hcond, hst⟩ := hbr
    subst hst
    have hp : proj = pyStem (Path.name pf) := by
      rw [hproj, name_withSuffix]
      unfold withSuffixName
      simp
    cases hsplit : lastDotSplit (Path.name pf).data with
    | none =>
      exfalso
      have hsfx : pySuffix (Path.name pf) = "" := by
        unfold pySuffix
        rw [hsplit]
      rw [hsfx] at hcond
      exact absurd hcond (by decide)
    | some ab =>
      obtain ⟨a, b⟩ := ab
      by_cases hc : a ≠ [] ∧ b ≠ []
      · have hsuf : pySuffix (Path.name pf) = (⟨'.' :: b⟩ : String) := by
          unfold pySuffix
          rw [hsplit]
          exact if_pos hc
        have hstem : pyStem (Path.name pf) = (⟨a⟩ : String) := by
          unfold pyStem
          rw [hsplit]
          exact if_pos hc
        obtain ⟨hna, hnb⟩ := lastDotSplit_sound hsplit
        rw [hsuf] at hcond
        have hmap : ('.' :: b).map lowerChar = ".kicad_pro".data := congrArg String.data hcond
        have hbmap : b.map lowerChar = "kicad_pro".data := by
          have h2 : lowerChar '.' :: b.map lowerChar = '.' :: "kicad_pro".data := hmap
          exact (List.cons.inj h2).2
        have hblen : b.length = 9 := by
          have := congrArg List.length hbmap
          simpa using this
        have hcondSpec : ((pyLower (Path.name pf)).data).reverse.take 10 =
            (".kicad_pro".data).reverse := by
          have hld : (pyLower (Path.name pf)).data =
              a.map lowerChar ++ ".kicad_pro".data := by
            show (Path.name pf).data.map lowerChar = _
            rw [hna, List.map_append, hmap]
          rw [hld, List.reverse_append]
          rw [show (10 : ℕ) = ((".kicad_pro".data).reverse).length from by decide]
          exact List.take_left _ _
        unfold specBaseName
        rw [if_pos hcondSpec, hp, hstem]
        have hlen : (Path.name pf).data.length - 10 = a.length := by
          rw [hna]
          simp [hblen]
        rw [hlen]
        have htake : (Path.name pf).data.take a.length = a := by
          rw [hna]
          exact List.take_left a _
        rw [htake]
      · exfalso
        have hsfx : pySuffix (Path.name pf) = "" := by
          unfold pySuffix
          rw [hsplit]
          exact if_neg hc
        rw [hsfx] at hcond
        exact absurd hcond (by decide)
  · obtain ⟨hcond, hst⟩ := hbr
    rw [hst] at hproj
    rw [hproj] at hnd ⊢
    have hfalse : ¬(((pyLower (Path.name pf)).data).reverse.take 10 =
        (".kicad_pro".data).reverse) := by
      intro hcs
      have hdotmem : ('.' : Char) ∈ ((pyLower (Path.name pf)).data).reverse.take 10 := by
        rw [hcs]
        decide
      have h2 : ('.' : Char) ∈ (Path.name pf).data.map lowerChar :=
        List.mem_reverse.mp (List.take_subset _ _ hdotmem)
      obtain ⟨c, hcmem, hceq⟩ := List.mem_map.mp h2
      exact hnd ((lowerChar_eq_dot hceq) ▸ hcmem)
    unfold specBaseName
    rw [if_neg hfalse]

/-- C1 (amended): restricted to project inputs whose resolved base name
contains no further dot (and is nonempty) — for dotted base names the code
derives companions by suffix REPLACEMENT, so the generated filenames drop
the part after the last dot while the resolver and the production tag keep
it (see the counterexample) — the resolver returns the input file name with
the conventional suffix stripped, and that base name is the stem of every
generated output filename and of the production run folder tag. -/
theorem claim_C1 (env : Env) (args : Args) (kicad proj : String) (sch pcb : Path)
    (hW : which_kicad_cli env = Except.ok kicad)
    (hPP : project_paths env args.project = Except.ok (proj, sch, pcb))
    (hne : proj ≠ "") (hnd : '.' ∉ proj.data)
    (hk : kicad ≠ "-o") (hkik : args.kikit = none)
    (hall : ∀ c, env.exitCode c = 0) :
    proj = specBaseName (Path.name args.project)
    ∧ (cmdsOf (mainTop env args).2).filterMap outArg =
        [pathStr (pjoin (pjoin args.root "3D_MODEL") (proj ++ ".step"))]
        ++ (if args.glb then [pathStr (pjoin (pjoin args.root "3D_MODEL") (proj ++ ".glb"))]
            else [])
        ++ [pathStr (pjoin (pjoin args.root "PICTURES") (proj ++ "_top.png")),
            pathStr (pjoin (pjoin args.root "PICTURES") (proj ++ "_bottom.png")),
            pathStr (pjoin (pjoin args.root "PICTURES") (proj ++ "_side.png"))]
        ++ (if args.iso then [pathStr (pjoin (pjoin args.root "PICTURES") (proj ++ "_iso.png"))]
            else [])
        ++ [pathStr (pjoin (pjoin args.root "DOCUMENTATION") (proj ++ "_schematic.pdf")),
            pathStr (pjoin (pjoin args.root "DOCUMENTATION") (proj ++ "_erc.rpt")),
            pathStr (pjoin (pjoin args.root "DOCUMENTATION") (proj ++ "_board_prints.pdf"))]
        ++ (if args.skip_drc then []
            else [pathStr (pjoin (pjoin args.root "DOCUMENTATION") (proj ++ "_drc.rpt"))])
        ++ [pathStr (pjoin (prod_root_path args.root args.prod_dir env.now proj) "gerbers"),
            pathStr (pjoin (prod_root_path args.root args.prod_dir env.now proj) "drill"),
            pathStr (pjoin (prod_root_path args.root args.prod_dir env.now proj) (proj ++ "_pos.csv")),
            pathStr (pjoin (prod_root_path args.root args.prod_dir env.now proj) (proj ++ "_bom.csv"))]
    ∧ prod_root_path args.root args.prod_dir env.now proj =
        pjoin (pjoin args.root args.prod_dir) (env.now ++ "_" ++ proj) := by
  have hKk : KikitReady env args := by
    rw [KikitReady, hkik]
    trivial
  have hcm := (mainTop_of_allOk env args kicad proj sch pcb hW hPP hKk (fun c _ => hall c)).2
  obtain ⟨hn1, hn2, hs1, hs2⟩ := resolved_names hPP hne hnd
  refine ⟨proj_eq_specBaseName hPP hnd, ?_, rfl⟩
  rw [hcm]
  cases hgl : args.glb <;> cases hio : args.iso <;> cases hsk : args.skip_drc <;>
    simp [mainCmds, cmds3d, cmdsPics, cmdsDocs, cmdsFab, cmdsKikit, hkik, hgl, hio, hsk,
      outArg, hk, hs1, hs2]

/-- Arguments whose project input carries the conventional suffix. -/
def argsC1 : Args :=
  { project := ["proj.kicad_pro"], root := ["r"], prod_dir := "PRODUCTION", iso := false,
    glb := false, zip := false, kikit := none, skip_drc := false }

/-- Witness for C1 (amended) at a concrete dotless project: the resolver
matches the spec-side base name and the production tag stems from it. -/
theorem claim_C1_witness :
    ("proj" : String) = specBaseName (Path.name (["proj.kicad_pro"] : Path))
    ∧ prod_root_path ["r"] "PRODUCTION" envOkW.now "proj" =
        pjoin (pjoin ["r"] "PRODUCTION") (envOkW.now ++ "_" ++ "proj") := by
  have h := claim_C1 envOkW argsC1 "kc" "proj" ["proj.kicad_sch"] ["proj.kicad_pcb"]
    rfl rfl (by decide) (by decide) (by decide) rfl (fun _ => rfl)
  exact ⟨h.1, h.2.2⟩

/-- Counterexample to C1 as stated: for the input a.b.kicad_pro (whose
stripped base name still contains a dot) the resolver returns a.b, and that
base name IS the input stem with the suffix stripped — but the derived
board file is a.kicad_pcb, so every generated filename uses the stem a,
not a.b: the 3D export writes a.step.  The base name is therefore not the
stem used in the generated filenames, refuting the uniformity part of the
claim. -/
theorem claim_C1_counterexample :
    project_paths envOkW ["a.b.kicad_pro"] =
      Except.ok ("a.b", ["a.kicad_sch"], ["a.kicad_pcb"])
    ∧ ((export_3d envOkW "kc" ["a.kicad_pcb"] ["3D_MODEL"] false) []).1 =
        Except.ok (pjoin ["3D_MODEL"] ("a" ++ ".step"))
    ∧ ("a" ++ ".step" : String) ≠ "a.b" ++ ".step" := by
  refine ⟨rfl, rfl, by decide⟩

end BoardScript
